import Mathlib

/-!
Verification of the `ChaoticMind/exoplanets` ingestion pipeline
(`scripts/parse.py`), a shallow embedding in Lean 4.

Modelling conventions:
* Python strings are `List Char`; `chars` converts a Lean string literal.
* Python `float(s)` is modelled by `pyFloat : List Char → Option Dec`,
  exact decimal semantics of finite decimal literals (optional
  surrounding whitespace, sign, integer/fraction digits, exponent).
  Non-finite literals (`inf`, `nan`) and digit-group underscores are not
  representable and are treated as parse failures; no claim below
  depends on them.
* Fallible code (row arity mismatch, non-numeric field, bad HTTP
  status) aborts the whole run in Python; the embedding returns `none`.
* The network and the clock are I/O: they enter as explicit parameters
  (`net` oracle for `requests.get`, `nowHuman`/`nowUnix` for the
  timestamp branch of `build_output`).
-/

/-- Characters of a Lean string literal; used to write Python string
literals as `List Char`. -/
def chars (s : String) : List Char := s.data

/-- Whitespace characters recognised by Python's `str.split()` /
`float()` stripping (the common ASCII subset). -/
def isPyWs (c : Char) : Bool :=
  c = ' ' || c = '\t' || c = '\n' || c = '\r' || c = '\x0b' || c = '\x0c'

/-- ASCII decimal digit test. -/
def isDig (c : Char) : Bool := '0' ≤ c && c ≤ '9'

/-- Value of a digit string, most significant digit first. -/
def digitsToNat (ds : List Char) : Nat :=
  ds.foldl (fun a c => a * 10 + (c.toNat - 48)) 0

/-- Strip leading and trailing Python whitespace. -/
def stripWs (s : List Char) : List Char :=
  ((s.dropWhile isPyWs).reverse.dropWhile isPyWs).reverse

/-- Exact decimal number `m * 10 ^ e`; the result type of the model of
Python `float`. Exact decimal arithmetic stands in for IEEE doubles:
no claim below compares numbers obtained from distinct literals, so
only determinism and propagation of the parsed value matter. -/
structure Dec where
  m : Int
  e : Int
deriving DecidableEq, Repr, Inhabited

/-- Rational value denoted by a `Dec`. -/
def Dec.toRat (d : Dec) : ℚ := (d.m : ℚ) * (10 : ℚ) ^ d.e

/-- Model of the Python builtin `float` on finite decimal literals,
with exact decimal value: optional whitespace, optional sign, digits
with optional fractional part, optional decimal exponent. Non-finite
literals (`inf`, `nan`) and digit-group underscores are not
representable and yield `none`. -/
def pyFloat (s0 : List Char) : Option Dec :=
  let s := stripWs s0
  let sgns : Int × List Char :=
    match s with
    | '+' :: t => (1, t)
    | '-' :: t => (-1, t)
    | _ => (1, s)
  let ip := sgns.2.takeWhile isDig
  let s2 := sgns.2.dropWhile isDig
  let fps : List Char × List Char :=
    match s2 with
    | '.' :: t => (t.takeWhile isDig, t.dropWhile isDig)
    | _ => ([], s2)
  let fp := fps.1
  if ip.isEmpty && fp.isEmpty then none
  else
    let mant : Int := sgns.1 * (digitsToNat (ip ++ fp) : Int)
    match fps.2 with
    | [] => some ⟨mant, -(fp.length : Int)⟩
    | e :: t =>
      if e = 'e' || e = 'E' then
        let esgns : Int × List Char :=
          match t with
          | '+' :: u => (1, u)
          | '-' :: u => (-1, u)
          | _ => (1, t)
        let ed := esgns.2.takeWhile isDig
        if ed.isEmpty || !(esgns.2.dropWhile isDig).isEmpty then none
        else some ⟨mant, esgns.1 * (digitsToNat ed : Int) - (fp.length : Int)⟩
      else none

/-- Accumulator worker for `splitWs`. -/
def splitWsAux : List Char → List Char → List (List Char)
  | [], acc => if acc.isEmpty then [] else [acc.reverse]
  | c :: cs, acc =>
    if isPyWs c then
      if acc.isEmpty then splitWsAux cs [] else acc.reverse :: splitWsAux cs []
    else splitWsAux cs (c :: acc)

/-- Model of Python `str.split()` with no argument: split on runs of
whitespace, discarding empty fields. -/
def splitWs (s : List Char) : List (List Char) := splitWsAux s []

/-- Model of Python `str.replace(',', ' ')` (single-character pattern,
hence a character-wise map). -/
def commaToSpace (s : List Char) : List Char :=
  s.map (fun c => if c = ',' then ' ' else c)

/-- Model of Python `str.replace('+', '&')` applied to reference codes. -/
def plusToAmp (s : List Char) : List Char :=
  s.map (fun c => if c = '+' then '&' else c)

/-- Join fields with a separator (inverse view of splitting; used to
state the CSV/ASCII equivalence over a common field list). -/
def joinSep (sep : List Char) : List (List Char) → List Char
  | [] => []
  | [f] => f
  | f :: g :: rest => f ++ sep ++ joinSep sep (g :: rest)

/-- Boolean string-prefix test, model of Python `str.startswith`. -/
def isPre : List Char → List Char → Bool
  | [], _ => true
  | _ :: _, [] => false
  | a :: as, b :: bs => a = b && isPre as bs

/-! URL templates of `scripts/parse.py` (lines 10-18); `{}`-formatting
with the hole at the end becomes concatenation with the prefix, and the
`HUMAN_URL` template with an interior hole becomes prefix ++ system ++
suffix. -/

/-- Leading part of `HUMAN_URL = "https://www.astro.keele.ac.uk/jkt/tepcat/planets/{}.html"`. -/
def HUMAN_PRE : List Char := chars "https://www.astro.keele.ac.uk/jkt/tepcat/planets/"

/-- Trailing part of `HUMAN_URL`. -/
def HTML_SUFFIX : List Char := chars ".html"

/-- Leading part of `ARXIV_URL = "https://arxiv.org/abs/{}"`. -/
def ARXIV_PRE : List Char := chars "https://arxiv.org/abs/"

/-- Leading part of `FALLBACK_URL = "http://adsabs.harvard.edu/abs/{}"`. -/
def FALLBACK_PRE : List Char := chars "http://adsabs.harvard.edu/abs/"

/-- The units-documentation URL `HELP_URL`. -/
def HELP_URL : List Char := chars "https://www.astro.keele.ac.uk/jkt/tepcat/html-quantities.html"

/-- The literal prefix `'arXiv'` tested by `str.startswith` on reference
codes. -/
def ARXIV_TAG : List Char := chars "arXiv"

/-- The `Properties` namedtuple of `parse_ascii` (lines 45-60): one raw
string per schema column, in declaration order. -/
structure Props where
  system : List Char
  Teff : List Char
  Teff_erru : List Char
  Teff_errd : List Char
  FeH : List Char
  FeH_erru : List Char
  FeH_errd : List Char
  Msun : List Char
  Msun_erru : List Char
  Msun_errd : List Char
  Rsun : List Char
  Rsun_erru : List Char
  Rsun_errd : List Char
  cgs : List Char
  cgs_erru : List Char
  cgs_errd : List Char
  rhosun : List Char
  rhosun_erru : List Char
  rhosun_errd : List Char
  Porb : List Char
  ecc : List Char
  ecc_erru : List Char
  ecc_errd : List Char
  a_AU : List Char
  a_AU_erru : List Char
  a_AU_errd : List Char
  Mjup : List Char
  Mjup_erru : List Char
  Mjup_errd : List Char
  Rjup : List Char
  Rjup_erru : List Char
  Rjup_errd : List Char
  ms2 : List Char
  ms2_erru : List Char
  ms2_errd : List Char
  rhoJup : List Char
  rhoJup_erru : List Char
  rhoJup_errd : List Char
  Teqk : List Char
  Teqk_erru : List Char
  Teqk_errd : List Char
  d_ref : List Char
  r_ref : List Char
deriving DecidableEq, Repr, Inhabited

/-- Model of `Properties(*line.split())`: succeeds exactly when the
field list has the arity of the schema (43 columns); a mismatch raises
`TypeError` in Python, which is fatal. -/
def mkProps : List (List Char) → Option Props
  | f1 :: f2 :: f3 :: f4 :: f5 :: f6 :: f7 :: f8 :: f9 :: f10 ::
    f11 :: f12 :: f13 :: f14 :: f15 :: f16 :: f17 :: f18 :: f19 :: f20 ::
    f21 :: f22 :: f23 :: f24 :: f25 :: f26 :: f27 :: f28 :: f29 :: f30 ::
    f31 :: f32 :: f33 :: f34 :: f35 :: f36 :: f37 :: f38 :: f39 :: f40 ::
    f41 :: f42 :: f43 :: [] =>
    some ⟨f1, f2, f3, f4, f5, f6, f7, f8, f9, f10,
          f11, f12, f13, f14, f15, f16, f17, f18, f19, f20,
          f21, f22, f23, f24, f25, f26, f27, f28, f29, f30,
          f31, f32, f33, f34, f35, f36, f37, f38, f39, f40,
          f41, f42, f43⟩
  | _ => none

/-- Value of a measurement-bearing field in a parsed row: a bare number
(`skip_err_margins=True`) or a value/error_plus/error_minus object
(`skip_err_margins=False`). These are the two shapes `get_data` can
return. -/
inductive Measurement where
  | bare (v : Dec)
  | triple (value error_plus error_minus : Dec)
deriving DecidableEq, Repr, Inhabited

/-- The `stellar_properties` group of a row (lines 87-97), keys in
insertion order. -/
structure StellarProps where
  temp_k : Measurement
  metal_log : Measurement
  mass_sol : Measurement
  radius_sol : Measurement
  gravity_log_cgs : Measurement
  density_sol : Measurement
deriving DecidableEq, Repr, Inhabited

/-- The `planetary_properties` group of a row (lines 99-104). -/
structure PlanetaryProps where
  mass_jup : Measurement
  radius_jup : Measurement
  gravity : Measurement
  density_jup : Measurement
  temp_eq_k : Measurement
deriving DecidableEq, Repr, Inhabited

/-- The `references` group of a row (lines 106-118). -/
structure References where
  human_url : List Char
  discovery : List Char
  recent : List Char
deriving DecidableEq, Repr, Inhabited

/-- One parsed row (`row` OrderedDict, lines 81-118), keys in insertion
order. -/
structure Record where
  system : List Char
  period : Measurement
  eccentricity : Measurement
  semimajor_AU : Measurement
  stellar_properties : StellarProps
  planetary_properties : PlanetaryProps
  references : References
deriving DecidableEq, Repr, Inhabited

/-- Model of the `get_data` closures of `parse_ascii` (lines 63-74).
The Python code looks the error columns up by the naming convention
`'{}_{}'.format(param, 'erru')` / `'errd'`; here the caller passes the
central accessor together with its two sibling accessors, so call
sites must pair `p` with `p_erru` and `p_errd` exactly as the
convention dictates. -/
def get_data (skip_err_margins : Bool) (x : Props)
    (v u d : Props → List Char) : Option Measurement :=
  match skip_err_margins with
  | true => (pyFloat (v x)).map Measurement.bare
  | false =>
    Option.bind (pyFloat (v x)) fun value =>
    Option.bind (pyFloat (u x)) fun ep =>
    Option.bind (pyFloat (d x)) fun em =>
    some (Measurement.triple value ep em)

/-- Reference-URL construction (lines 108-118): an `arXiv`-prefixed
code goes into the arXiv template verbatim; any other code goes into
the fallback template and then every `+` of the whole URL is replaced
by `&` (the template prefix contains no `+`). -/
def refUrl (code : List Char) : List Char :=
  if isPre ARXIV_TAG code then ARXIV_PRE ++ code
  else plusToAmp (FALLBACK_PRE ++ code)

/-- The `references` group built for a row (lines 106-118). -/
def mkRefs (x : Props) : References :=
  { human_url := HUMAN_PRE ++ x.system ++ HTML_SUFFIX
    discovery := refUrl x.d_ref
    recent := refUrl x.r_ref }

/-- The `stellar_properties` group of the loop body (lines 87-97),
`get_data` on the six stellar columns in source order. -/
def parseStellar (skip_err_margins : Bool) (x : Props) : Option StellarProps :=
  Option.bind (get_data skip_err_margins x Props.Teff Props.Teff_erru Props.Teff_errd) fun teff =>
  Option.bind (get_data skip_err_margins x Props.FeH Props.FeH_erru Props.FeH_errd) fun feh =>
  Option.bind (get_data skip_err_margins x Props.Msun Props.Msun_erru Props.Msun_errd) fun msun =>
  Option.bind (get_data skip_err_margins x Props.Rsun Props.Rsun_erru Props.Rsun_errd) fun rsun =>
  Option.bind (get_data skip_err_margins x Props.cgs Props.cgs_erru Props.cgs_errd) fun cgsv =>
  Option.bind (get_data skip_err_margins x Props.rhosun Props.rhosun_erru Props.rhosun_errd) fun rhos =>
  some
    { temp_k := teff, metal_log := feh, mass_sol := msun
      radius_sol := rsun, gravity_log_cgs := cgsv, density_sol := rhos }

/-- The `planetary_properties` group of the loop body (lines 99-104),
`get_data` on the five planetary columns in source order. -/
def parsePlanetary (skip_err_margins : Bool) (x : Props) : Option PlanetaryProps :=
  Option.bind (get_data skip_err_margins x Props.Mjup Props.Mjup_erru Props.Mjup_errd) fun mjup =>
  Option.bind (get_data skip_err_margins x Props.Rjup Props.Rjup_erru Props.Rjup_errd) fun rjup =>
  Option.bind (get_data skip_err_margins x Props.ms2 Props.ms2_erru Props.ms2_errd) fun ms2v =>
  Option.bind (get_data skip_err_margins x Props.rhoJup Props.rhoJup_erru Props.rhoJup_errd) fun rhoj =>
  Option.bind (get_data skip_err_margins x Props.Teqk Props.Teqk_erru Props.Teqk_errd) fun teqk =>
  some
    { mass_jup := mjup, radius_jup := rjup, gravity := ms2v
      density_jup := rhoj, temp_eq_k := teqk }

/-- Body of the `parse_ascii` loop after the `Properties` construction
(lines 81-119): every numeric conversion must succeed, in source order
(period, eccentricity, semimajor axis, the stellar group, the
planetary group), else the row (and the run) fails. -/
def parseRow (skip_err_margins : Bool) (x : Props) : Option Record :=
  Option.bind (pyFloat x.Porb) fun period =>
  Option.bind (get_data skip_err_margins x Props.ecc Props.ecc_erru Props.ecc_errd) fun ecc =>
  Option.bind (get_data skip_err_margins x Props.a_AU Props.a_AU_erru Props.a_AU_errd) fun aau =>
  Option.bind (parseStellar skip_err_margins x) fun st =>
  Option.bind (parsePlanetary skip_err_margins x) fun pl =>
  some
    { system := x.system
      period := Measurement.bare period
      eccentricity := ecc
      semimajor_AU := aau
      stellar_properties := st
      planetary_properties := pl
      references := mkRefs x }

/-- Parse of one non-skipped line: split on whitespace, build the
namedtuple, then the row. -/
def parseLine (skip_err_margins : Bool) (line : List Char) : Option Record :=
  (mkProps (splitWs line)).bind (parseRow skip_err_margins)

/-- Negation of the skip test `line.startswith('#') or not line`
(line 77): a line produces a Record iff it is kept. -/
def keepLine (line : List Char) : Bool :=
  !(isPre (chars "#") line) && !line.isEmpty

/-- Model of `parse_ascii` (lines 44-120): comment and empty lines are
skipped, every kept line must parse, results in source order. An
exception anywhere aborts the whole run (`none`). -/
def parse_ascii : List (List Char) → Bool → Option (List Record)
  | [], _ => some []
  | line :: rest, skip_err_margins =>
    if keepLine line then
      match parseLine skip_err_margins line, parse_ascii rest skip_err_margins with
      | some r, some rs => some (r :: rs)
      | _, _ => none
    else
      parse_ascii rest skip_err_margins

/-- Model of `parse_csv` (lines 39-41): drop the header line, replace
each comma by a space, then parse as ASCII. -/
def parse_csv (src : List (List Char)) (skip_err_margins : Bool) : Option (List Record) :=
  parse_ascii ((src.drop 1).map commaToSpace) skip_err_margins

/-- Value stored under one key of the output envelope (`OrderedDict` of
`build_output`, modelled as an ordered key/value list). -/
inductive EnvVal where
  | str (s : List Char)
  | int (n : Int)
  | recs (rs : List Record)
deriving DecidableEq, Repr, Inhabited

/-- Model of `build_output` (lines 123-135). Reading the clock is I/O:
the human-readable and Unix forms of `datetime.datetime.utcnow()` enter
as the parameters `nowHuman`/`nowUnix`, used only when `timestamp` is
true. -/
def build_output (data : List Record) (timestamp : Bool)
    (nowHuman : List Char) (nowUnix : Int) : List (List Char × EnvVal) :=
  (if timestamp then
    [(chars "fetched_data_human_utc", EnvVal.str nowHuman),
     (chars "fetched_data_unix_utc", EnvVal.int nowUnix)]
  else
    [(chars "fetched_date_human", EnvVal.str (chars "unknown")),
     (chars "fetched_date_unix", EnvVal.int 0)])
  ++ [(chars "units_info", EnvVal.str HELP_URL),
      (chars "data", EnvVal.recs data)]

/-- Fuel-indexed worker for `pyReplace`; the fuel is the length of the
remaining text, which bounds the recursion when the pattern is
nonempty. -/
def pyReplaceAux (old new : List Char) : Nat → List Char → List Char
  | _, [] => []
  | 0, l => l
  | fuel + 1, c :: cs =>
    if isPre old (c :: cs) && !old.isEmpty then
      new ++ pyReplaceAux old new fuel ((c :: cs).drop old.length)
    else
      c :: pyReplaceAux old new fuel cs

/-- Model of Python `str.replace(old, new)` for a nonempty pattern:
replace every non-overlapping occurrence, scanning left to right. -/
def pyReplace (old new s : List Char) : List Char :=
  pyReplaceAux old new s.length s

/-- Model of Python `source.split('\n')`: split on each newline,
keeping empty pieces (so the result is never empty). -/
def splitOnNl : List Char → List (List Char)
  | [] => [[]]
  | c :: cs =>
    if c = '\n' then [] :: splitOnNl cs
    else
      match splitOnNl cs with
      | [] => [[c]]
      | f :: rest => (c :: f) :: rest

/-- Outcome of one `requests.get` call, the network oracle's answer:
a response with status and body, or an `SSLError` on certificate
verification failure. -/
inductive NetResult where
  | ok (status : Nat) (text : List Char)
  | sslError
deriving DecidableEq, Repr, Inhabited

/-- URLs requested by the `web=True` branch of `fetch_source`
(lines 22-28), in order: the given URI, and on `SSLError` one retry at
`URI.replace('https', 'http')`. -/
def requestLog (net : List Char → NetResult) (uri : List Char) : List (List Char) :=
  match net uri with
  | NetResult.ok _ _ => [uri]
  | NetResult.sslError => [uri, pyReplace (chars "https") (chars "http") uri]

/-- Model of the `web=True` branch of `fetch_source` (lines 21-36) over
a network oracle `net`; the `web=False` branch is a file read (I/O) and
is outside the embedding. A non-200 status raises `RuntimeError`
(`none`); a second `SSLError` propagates unhandled (`none`). -/
def fetch_source (net : List Char → NetResult) (uri : List Char) : Option (List (List Char)) :=
  match net uri with
  | NetResult.ok status text =>
    if status = 200 then some (splitOnNl text) else none
  | NetResult.sslError =>
    match net (pyReplace (chars "https") (chars "http") uri) with
    | NetResult.ok status text =>
      if status = 200 then some (splitOnNl text) else none
    | NetResult.sslError => none

/-- Modelled from the spec: the retry URL C7 describes, "the same host
and path ... differs from the original only in its scheme (https
downgraded to http)" — only a leading `https` scheme is rewritten and
the remainder of the URL is kept unchanged. Stated for comparison with
the code's `pyReplace`-based retry URL. -/
def specSchemeDowngrade (uri : List Char) : List Char :=
  if isPre (chars "https") uri then chars "http" ++ uri.drop (chars "https").length
  else uri

/-- Shape predicate for C4/C8: `m` is the bare parsed value of column
`v` (the `skip_err_margins=True` shape). -/
def IsBare (m : Measurement) (v : List Char) : Prop :=
  ∃ q, pyFloat v = some q ∧ m = Measurement.bare q

/-- Shape predicate for C4: `m` is the value/error_plus/error_minus
object parsed from the central column `v` and its sibling error
columns `u` and `d` (the `skip_err_margins=False` shape). -/
def IsTriple (m : Measurement) (v u d : List Char) : Prop :=
  ∃ a b c, pyFloat v = some a ∧ pyFloat u = some b ∧ pyFloat d = some c ∧
    m = Measurement.triple a b c

/-! Concrete inputs used by the claim witnesses and counterexamples:
full 43-column rows (system, 40 numeric columns, two reference
codes). -/

/-- Field list of a well-formed row whose reference codes are one
plain code and one `arXiv` code. -/
def wFields : List (List Char) :=
  chars "KELT-1" :: (List.replicate 40 (chars "1.5") ++ [chars "ref1", chars "arXiv:1206.1635"])

/-- The row of `wFields` as an ASCII input line. -/
def wLine : List Char := joinSep [' '] wFields

/-- The namedtuple parsed from `wLine`. -/
def wProps : Props := (mkProps (splitWs wLine)).getD default

/-- The Record parsed from `wLine` with error margins skipped. -/
def wRecT : Record := (parseLine true wLine).getD default

/-- The Record parsed from `wLine` with error margins kept. -/
def wRecF : Record := (parseLine false wLine).getD default

/-- Field list of a row whose two reference codes are both plain
(non-arXiv) codes containing `+`. -/
def wFieldsB : List (List Char) :=
  chars "WASP-12" :: (List.replicate 40 (chars "2.5") ++
    [chars "2004ApJ...600L..67B+2005", chars "2009ApJ...693..784M+X"])

/-- The row of `wFieldsB` as an ASCII input line. -/
def wLineB : List Char := joinSep [' '] wFieldsB

/-- The namedtuple parsed from `wLineB`. -/
def wPropsB : Props := (mkProps (splitWs wLineB)).getD default

/-- The Record parsed from `wLineB` with error margins skipped. -/
def wRecB : Record := (parseLine true wLineB).getD default

/-- Field list of a row whose two reference codes both start with
`arXiv`. -/
def wFieldsA : List (List Char) :=
  chars "HAT-P-7" :: (List.replicate 40 (chars "3.5") ++
    [chars "arXiv:1207.3000", chars "arXiv:0802.4364"])

/-- The row of `wFieldsA` as an ASCII input line. -/
def wLineA : List Char := joinSep [' '] wFieldsA

/-- The namedtuple parsed from `wLineA`. -/
def wPropsA : Props := (mkProps (splitWs wLineA)).getD default

/-- The Record parsed from `wLineA` with error margins skipped. -/
def wRecA : Record := (parseLine true wLineA).getD default

/-! Helper lemmas about the embedded parser. -/

/-- A successful `Properties` construction means the field list had
exactly the 43 schema columns. -/
theorem mkProps_length {l : List (List Char)} {x : Props}
    (h : mkProps l = some x) : l.length = 43 := by
  unfold mkProps at h
  split at h
  · simp_all
  · exact absurd h (by simp)

/-- The `system` attribute of a successfully built `Properties` tuple
is the first field of the split line, verbatim. -/
theorem mkProps_head {l : List (List Char)} {x : Props}
    (h : mkProps l = some x) : l.head? = some x.system := by
  unfold mkProps at h
  split at h
  · obtain rfl : _ = x := Option.some.inj h
    rfl
  · exact absurd h (by simp)

/-- Components of a successful stellar-group parse. -/
theorem parseStellar_some {skip_err_margins : Bool} {x : Props} {st : StellarProps}
    (h : parseStellar skip_err_margins x = some st) :
    get_data skip_err_margins x Props.Teff Props.Teff_erru Props.Teff_errd = some st.temp_k ∧
    get_data skip_err_margins x Props.FeH Props.FeH_erru Props.FeH_errd = some st.metal_log ∧
    get_data skip_err_margins x Props.Msun Props.Msun_erru Props.Msun_errd = some st.mass_sol ∧
    get_data skip_err_margins x Props.Rsun Props.Rsun_erru Props.Rsun_errd = some st.radius_sol ∧
    get_data skip_err_margins x Props.cgs Props.cgs_erru Props.cgs_errd = some st.gravity_log_cgs ∧
    get_data skip_err_margins x Props.rhosun Props.rhosun_erru Props.rhosun_errd = some st.density_sol := by
  simp only [parseStellar, Option.bind_eq_some, Option.some.injEq] at h
  obtain ⟨a, ha, b, hb, c, hc, d, hd, e, he, f, hf, rfl⟩ := h
  exact ⟨ha, hb, hc, hd, he, hf⟩

/-- Components of a successful planetary-group parse. -/
theorem parsePlanetary_some {skip_err_margins : Bool} {x : Props} {pl : PlanetaryProps}
    (h : parsePlanetary skip_err_margins x = some pl) :
    get_data skip_err_margins x Props.Mjup Props.Mjup_erru Props.Mjup_errd = some pl.mass_jup ∧
    get_data skip_err_margins x Props.Rjup Props.Rjup_erru Props.Rjup_errd = some pl.radius_jup ∧
    get_data skip_err_margins x Props.ms2 Props.ms2_erru Props.ms2_errd = some pl.gravity ∧
    get_data skip_err_margins x Props.rhoJup Props.rhoJup_erru Props.rhoJup_errd = some pl.density_jup ∧
    get_data skip_err_margins x Props.Teqk Props.Teqk_erru Props.Teqk_errd = some pl.temp_eq_k := by
  simp only [parsePlanetary, Option.bind_eq_some, Option.some.injEq] at h
  obtain ⟨a, ha, b, hb, c, hc, d, hd, e, he,
    rfl⟩ := h
  exact ⟨ha, hb, hc, hd, he⟩

/-- Components of a successful row parse. -/
theorem parseRow_some {skip_err_margins : Bool} {x : Props} {r : Record}
    (h : parseRow skip_err_margins x = some r) :
    r.system = x.system ∧
    IsBare r.period x.Porb ∧
    get_data skip_err_margins x Props.ecc Props.ecc_erru Props.ecc_errd = some r.eccentricity ∧
    get_data skip_err_margins x Props.a_AU Props.a_AU_erru Props.a_AU_errd = some r.semimajor_AU ∧
    parseStellar skip_err_margins x = some r.stellar_properties ∧
    parsePlanetary skip_err_margins x = some r.planetary_properties ∧
    r.references = mkRefs x := by
  simp only [parseRow, Option.bind_eq_some, Option.some.injEq] at h
  obtain ⟨p, hp, e, he, a, ha, st, hst, pl, hpl, rfl⟩ := h
  exact ⟨rfl, ⟨p, hp, rfl⟩, he, ha, hst, hpl, rfl⟩

/-- In skip mode, a successful `get_data` yields the bare parsed value
of the central column. -/
theorem get_data_true {x : Props} {v u d : Props → List Char} {m : Measurement}
    (h : get_data true x v u d = some m) : IsBare m (v x) := by
  simp only [get_data, Option.map_eq_some'] at h
  obtain ⟨q, hq, rfl⟩ := h
  exact ⟨q, hq, rfl⟩

/-- In keep mode, a successful `get_data` yields the
value/error_plus/error_minus object of the three sibling columns. -/
theorem get_data_false {x : Props} {v u d : Props → List Char} {m : Measurement}
    (h : get_data false x v u d = some m) : IsTriple m (v x) (u x) (d x) := by
  simp only [get_data, Option.bind_eq_some, Option.some.injEq] at h
  obtain ⟨a, ha, b, hb, c, hc, rfl⟩ := h
  exact ⟨a, b, c, ha, hb, hc, rfl⟩

/-- A successful `parseLine` with a known `Properties` tuple factors
through `parseRow`. -/
theorem parseLine_some {skip_err_margins : Bool} {line : List Char} {x : Props} {r : Record}
    (hx : mkProps (splitWs line) = some x)
    (hr : parseLine skip_err_margins line = some r) :
    parseRow skip_err_margins x = some r := by
  rw [parseLine, hx] at hr
  exact hr

/-- A comma-free string is unchanged by the comma-to-space
normalization. -/
theorem commaToSpace_eq_self {f : List Char} (h : ',' ∉ f) : commaToSpace f = f := by
  induction f with
  | nil => rfl
  | cons c cs ih =>
    have hc : c ≠ ',' := fun hcc => h (hcc ▸ List.mem_cons_self c cs)
    have hcs : ',' ∉ cs := fun hm => h (List.mem_cons_of_mem c hm)
    show (if c = ',' then ' ' else c) :: commaToSpace cs = c :: cs
    rw [if_neg hc, ih hcs]

/-- Comma-to-space normalization turns a comma-joined row of
comma-free fields into the space-joined row. -/
theorem commaToSpace_joinSep {row : List (List Char)}
    (h : ∀ f ∈ row, ',' ∉ f) :
    commaToSpace (joinSep [','] row) = joinSep [' '] row := by
  induction row with
  | nil => rfl
  | cons f rest ih =>
    cases rest with
    | nil =>
      simpa [joinSep] using commaToSpace_eq_self (h f (List.mem_cons_self f []))
    | cons g rest2 =>
      have hf : ',' ∉ f := h f (List.mem_cons_self f (g :: rest2))
      have hrest : ∀ a ∈ g :: rest2, ',' ∉ a := fun a ha => h a (List.mem_cons_of_mem f ha)
      show commaToSpace (f ++ [','] ++ joinSep [','] (g :: rest2)) = f ++ [' '] ++ joinSep [' '] (g :: rest2)
      rw [show commaToSpace (f ++ [','] ++ joinSep [','] (g :: rest2)) =
        commaToSpace f ++ commaToSpace [','] ++ commaToSpace (joinSep [','] (g :: rest2)) from by
          simp [commaToSpace]]
      rw [commaToSpace_eq_self hf, ih hrest]
      rfl

/-- The `+`-to-`&` replacement distributes over concatenation. -/
theorem plusToAmp_append (a b : List Char) :
    plusToAmp (a ++ b) = plusToAmp a ++ plusToAmp b := by
  simp [plusToAmp]

/-- The fallback URL template contains no `+`, so the replacement
leaves it unchanged. -/
theorem plusToAmp_fallback : plusToAmp FALLBACK_PRE = FALLBACK_PRE := by decide

/-- A string with a verified prefix is that prefix followed by the
rest. -/
theorem isPre_append_drop : ∀ (p l : List Char), isPre p l = true → l = p ++ l.drop p.length
  | [], l, _ => rfl
  | a :: as, [], h => by simp [isPre] at h
  | a :: as, b :: bs, h => by
    simp only [isPre, Bool.and_eq_true, decide_eq_true_eq] at h
    obtain ⟨rfl, h2⟩ := h
    simpa using isPre_append_drop as bs h2

/-- The fuel argument of `pyReplaceAux` is irrelevant once it covers
the length of the text. -/
theorem pyReplaceAux_fuel (old new : List Char) :
    ∀ f1 f2 l, l.length ≤ f1 → l.length ≤ f2 →
      pyReplaceAux old new f1 l = pyReplaceAux old new f2 l := by
  intro f1
  induction f1 with
  | zero =>
    intro f2 l h1 _
    have : l = [] := List.eq_nil_of_length_eq_zero (Nat.le_zero.mp h1)
    subst this
    cases f2 <;> rfl
  | succ f ih =>
    intro f2 l h1 h2
    cases l with
    | nil => cases f2 <;> rfl
    | cons c cs =>
      cases f2 with
      | zero => exact absurd h2 (by simp)
      | succ f2' =>
        show pyReplaceAux old new (f + 1) (c :: cs) = pyReplaceAux old new (f2' + 1) (c :: cs)
        rw [pyReplaceAux, pyReplaceAux]
        by_cases hp : (isPre old (c :: cs) && !old.isEmpty) = true
        · rw [if_pos hp, if_pos hp]
          have hone : 1 ≤ old.length := by
            rcases old with _ | ⟨o, os⟩
            · simp at hp
            · simp
          have hlen : ((c :: cs).drop old.length).length ≤ cs.length := by
            simp only [List.length_drop, List.length_cons]
            omega
          have h1' : ((c :: cs).drop old.length).length ≤ f := by
            have : cs.length ≤ f := by simpa using Nat.lt_succ_iff.mp (Nat.lt_of_lt_of_le (Nat.lt_succ_self _) (by simpa using h1))
            omega
          have h2' : ((c :: cs).drop old.length).length ≤ f2' := by
            have : cs.length ≤ f2' := by simpa using Nat.lt_succ_iff.mp (Nat.lt_of_lt_of_le (Nat.lt_succ_self _) (by simpa using h2))
            omega
          rw [ih _ _ h1' h2']
        · rw [if_neg hp, if_neg hp]
          have h1' : cs.length ≤ f := by simpa using Nat.succ_le_succ_iff.mp (by simpa using h1)
          have h2' : cs.length ≤ f2' := by simpa using Nat.succ_le_succ_iff.mp (by simpa using h2)
          rw [ih _ _ h1' h2']

/-- When the pattern is a nonempty prefix of the text, the replacement
rewrites it and continues after it. -/
theorem pyReplace_head {old new l : List Char} (h : isPre old l = true) (hne : old ≠ []) :
    pyReplace old new l = new ++ pyReplace old new (l.drop old.length) := by
  cases l with
  | nil =>
    rcases old with _ | ⟨o, os⟩
    · exact absurd rfl hne
    · simp [isPre] at h
  | cons c cs =>
    show pyReplaceAux old new (c :: cs).length (c :: cs) = _
    rw [List.length_cons, pyReplaceAux]
    rw [if_pos (by simp [h, hne])]
    congr 1
    apply pyReplaceAux_fuel
    · have hone : 1 ≤ old.length := by
        rcases old with _ | ⟨o, os⟩
        · exact absurd rfl hne
        · simp
      simp only [List.length_drop, List.length_cons]
      omega
    · exact Nat.le_refl _

/-! Claim theorems. -/

/-- C1, counterexample: in the unstamped envelope the claimed timestamp
keys `fetched_data_human_utc` and `fetched_data_unix_utc` are absent
altogether (the sentinel branch writes different key names), so they do
not hold the sentinel pair. -/
theorem build_output_unstamped_missing_utc_keys :
    ((build_output [] false (chars "2026-Oct-12 00:00:00") 1760227200).lookup
      (chars "fetched_data_human_utc") = none) ∧
    ((build_output [] false (chars "2026-Oct-12 00:00:00") 1760227200).lookup
      (chars "fetched_data_unix_utc") = none) := by decide

/-- C1, amended: with stamping disabled, `build_output` produces the
envelope whose timestamp keys are `fetched_date_human` and
`fetched_date_unix`, holding exactly the sentinel pair `"unknown"` and
`0` — independent of the clock parameters, so never a real clock
time — followed by the units URL and the data. -/
theorem build_output_unstamped_sentinel (data : List Record)
    (nowHuman : List Char) (nowUnix : Int) :
    build_output data false nowHuman nowUnix =
      [(chars "fetched_date_human", EnvVal.str (chars "unknown")),
       (chars "fetched_date_unix", EnvVal.int 0),
       (chars "units_info", EnvVal.str HELP_URL),
       (chars "data", EnvVal.recs data)] := rfl

/-- C3, counterexample: the schema length is 43, not 45 — a kept
43-field row, whose field count therefore differs from 45, parses
successfully instead of raising a fatal error. -/
theorem schema_length_43_not_45 :
    keepLine wLine = true ∧ (splitWs wLine).length = 43 ∧
    (splitWs wLine).length ≠ 45 ∧ parse_ascii [wLine] true = some [wRecT] := by decide

/-- C3, amended: any kept (non-comment, non-empty) line whose
whitespace-split field count differs from the schema length of 43
makes the whole parse fail: no Record for the row and no partial
output. -/
theorem parse_ascii_arity_mismatch_fatal (src : List (List Char))
    (skip_err_margins : Bool) (line : List Char)
    (hmem : line ∈ src) (hkeep : keepLine line = true)
    (hlen : (splitWs line).length ≠ 43) :
    parse_ascii src skip_err_margins = none := by
  have hnone : parseLine skip_err_margins line = none := by
    cases hpl : parseLine skip_err_margins line with
    | none => rfl
    | some r =>
      rw [parseLine] at hpl
      cases hx : mkProps (splitWs line) with
      | none => rw [hx] at hpl; exact absurd hpl (by simp)
      | some x => exact absurd (mkProps_length hx) hlen
  induction src with
  | nil => exact absurd hmem (by simp)
  | cons a rest ih =>
    rcases List.mem_cons.mp hmem with rfl | hmem2
    · rw [parse_ascii, if_pos hkeep, hnone]
    · rw [parse_ascii]
      by_cases hk : keepLine a
      · rw [if_pos hk, ih hmem2]
        cases parseLine skip_err_margins a <;> rfl
      · rw [if_neg hk]
        exact ih hmem2

/-- C3, witness of the amended theorem: a kept two-field line aborts
the run. -/
theorem parse_ascii_arity_mismatch_fatal_witness :
    (chars "xy zz" ∈ [chars "xy zz"]) ∧ keepLine (chars "xy zz") = true ∧
    (splitWs (chars "xy zz")).length ≠ 43 ∧
    parse_ascii [chars "xy zz"] true = none :=
  ⟨by decide, by decide, by decide,
    parse_ascii_arity_mismatch_fatal [chars "xy zz"] true (chars "xy zz")
      (by decide) (by decide) (by decide)⟩

/-- C8, confirmed: in every Record of a successful parse, in both
modes, the `period` field is the bare float of the row's `Porb`
column, never a value/error object. -/
theorem period_always_bare (skip_err_margins : Bool) (line : List Char)
    (x : Props) (r : Record)
    (hx : mkProps (splitWs line) = some x)
    (hr : parseLine skip_err_margins line = some r) :
    IsBare r.period x.Porb :=
  (parseRow_some (parseLine_some hx hr)).2.1

/-- C8, witness: the period of the record of `wLine` in keep-errors
mode is the bare parse of its `Porb` column. -/
theorem period_always_bare_witness :
    mkProps (splitWs wLine) = some wProps ∧
    parseLine false wLine = some wRecF ∧
    IsBare wRecF.period wProps.Porb :=
  ⟨by decide, by decide,
    period_always_bare false wLine wProps wRecF (by decide) (by decide)⟩

/-- C10, confirmed: every Record's `human_url` is the TEPCat
per-planet page URL built from the row's first field (the system
identifier) verbatim, as a string. -/
theorem human_url_from_system_verbatim (skip_err_margins : Bool)
    (line : List Char) (x : Props) (r : Record)
    (hx : mkProps (splitWs line) = some x)
    (hr : parseLine skip_err_margins line = some r) :
    r.references.human_url = HUMAN_PRE ++ x.system ++ HTML_SUFFIX ∧
    (splitWs line).head? = some x.system := by
  refine ⟨?_, mkProps_head hx⟩
  have h := (parseRow_some (parseLine_some hx hr)).2.2.2.2.2.2
  rw [h]
  rfl

/-- C10, witness: the record of `wLine` points at the
`KELT-1.html` TEPCat page. -/
theorem human_url_from_system_verbatim_witness :
    mkProps (splitWs wLine) = some wProps ∧
    parseLine true wLine = some wRecT ∧
    (wRecT.references.human_url = HUMAN_PRE ++ wProps.system ++ HTML_SUFFIX ∧
     (splitWs wLine).head? = some wProps.system) :=
  ⟨by decide, by decide,
    human_url_from_system_verbatim true wLine wProps wRecT (by decide) (by decide)⟩

/-- C5, confirmed: for any reference code not starting with `arXiv`,
the URL constructed from it (the discovery URL for `d_ref`, the recent
URL for `r_ref`, each independently of the other code) is the fallback
literature-database URL containing the code with every `+` replaced by
`&`. -/
theorem fallback_ref_url_plus_amp (skip_err_margins : Bool)
    (line : List Char) (x : Props) (r : Record)
    (hx : mkProps (splitWs line) = some x)
    (hr : parseLine skip_err_margins line = some r) :
    (isPre ARXIV_TAG x.d_ref = false →
      r.references.discovery = FALLBACK_PRE ++ plusToAmp x.d_ref) ∧
    (isPre ARXIV_TAG x.r_ref = false →
      r.references.recent = FALLBACK_PRE ++ plusToAmp x.r_ref) := by
  have h := (parseRow_some (parseLine_some hx hr)).2.2.2.2.2.2
  rw [h]
  unfold mkRefs refUrl
  constructor
  · intro hd
    rw [hd]
    simp only [Bool.false_eq_true, if_false]
    rw [plusToAmp_append, plusToAmp_fallback]
  · intro hrr
    rw [hrr]
    simp only [Bool.false_eq_true, if_false]
    rw [plusToAmp_append, plusToAmp_fallback]

/-- C5, witness: a row whose codes are `2004ApJ...600L..67B+2005` (the
claim's example) and `2009ApJ...693..784M+X` gets fallback URLs with
`&` in place of each `+` — in particular the example URL ends in
`...B&2005`, not `...B+2005`. -/
theorem fallback_ref_url_plus_amp_witness :
    mkProps (splitWs wLineB) = some wPropsB ∧
    parseLine true wLineB = some wRecB ∧
    ((isPre ARXIV_TAG wPropsB.d_ref = false →
       wRecB.references.discovery = FALLBACK_PRE ++ plusToAmp wPropsB.d_ref) ∧
     (isPre ARXIV_TAG wPropsB.r_ref = false →
       wRecB.references.recent = FALLBACK_PRE ++ plusToAmp wPropsB.r_ref)) ∧
    isPre ARXIV_TAG wPropsB.d_ref = false ∧
    isPre ARXIV_TAG wPropsB.r_ref = false ∧
    wRecB.references.discovery =
      chars "http://adsabs.harvard.edu/abs/2004ApJ...600L..67B&2005" :=
  ⟨by decide, by decide,
    fallback_ref_url_plus_amp true wLineB wPropsB wRecB (by decide) (by decide),
    by decide, by decide, by decide⟩

/-- C6, confirmed: for any reference code starting with the literal
prefix `arXiv`, the URL constructed from it (the discovery URL for
`d_ref`, the recent URL for `r_ref`, each independently of the other
code) is `https://arxiv.org/abs/<code>` with the code embedded
verbatim. -/
theorem arxiv_ref_url_verbatim (skip_err_margins : Bool)
    (line : List Char) (x : Props) (r : Record)
    (hx : mkProps (splitWs line) = some x)
    (hr : parseLine skip_err_margins line = some r) :
    (isPre ARXIV_TAG x.d_ref = true →
      r.references.discovery = ARXIV_PRE ++ x.d_ref) ∧
    (isPre ARXIV_TAG x.r_ref = true →
      r.references.recent = ARXIV_PRE ++ x.r_ref) := by
  have h := (parseRow_some (parseLine_some hx hr)).2.2.2.2.2.2
  rw [h]
  unfold mkRefs refUrl
  constructor
  · intro hd
    rw [hd]
    rfl
  · intro hrr
    rw [hrr]
    rfl

/-- C6, witness: a row whose two codes start with `arXiv` gets plain
arXiv abstract URLs, unmodified codes included; the mixed row `wLine`
(plain `d_ref`, arXiv `r_ref`) exercises the `r_ref` implication on
its own. -/
theorem arxiv_ref_url_verbatim_witness :
    mkProps (splitWs wLineA) = some wPropsA ∧
    parseLine true wLineA = some wRecA ∧
    ((isPre ARXIV_TAG wPropsA.d_ref = true →
       wRecA.references.discovery = ARXIV_PRE ++ wPropsA.d_ref) ∧
     (isPre ARXIV_TAG wPropsA.r_ref = true →
       wRecA.references.recent = ARXIV_PRE ++ wPropsA.r_ref)) ∧
    isPre ARXIV_TAG wPropsA.d_ref = true ∧
    isPre ARXIV_TAG wPropsA.r_ref = true ∧
    wRecA.references.discovery = chars "https://arxiv.org/abs/arXiv:1207.3000" :=
  ⟨by decide, by decide,
    arxiv_ref_url_verbatim true wLineA wPropsA wRecA (by decide) (by decide),
    by decide, by decide, by decide⟩

/-- C4, confirmed: on the same well-formed row, every
measurement-bearing field is a bare float when error margins are
skipped, and a value/error_plus/error_minus object built from the
central column and its `_erru`/`_errd` siblings when they are kept. -/
theorem get_data_mode_shapes (line : List Char) (x : Props) (r rk : Record)
    (hx : mkProps (splitWs line) = some x)
    (ht : parseLine true line = some r)
    (hf : parseLine false line = some rk) :
    (IsBare r.eccentricity x.ecc ∧
     IsBare r.semimajor_AU x.a_AU ∧
     IsBare r.stellar_properties.temp_k x.Teff ∧
     IsBare r.stellar_properties.metal_log x.FeH ∧
     IsBare r.stellar_properties.mass_sol x.Msun ∧
     IsBare r.stellar_properties.radius_sol x.Rsun ∧
     IsBare r.stellar_properties.gravity_log_cgs x.cgs ∧
     IsBare r.stellar_properties.density_sol x.rhosun ∧
     IsBare r.planetary_properties.mass_jup x.Mjup ∧
     IsBare r.planetary_properties.radius_jup x.Rjup ∧
     IsBare r.planetary_properties.gravity x.ms2 ∧
     IsBare r.planetary_properties.density_jup x.rhoJup ∧
     IsBare r.planetary_properties.temp_eq_k x.Teqk) ∧
    (IsTriple rk.eccentricity x.ecc x.ecc_erru x.ecc_errd ∧
     IsTriple rk.semimajor_AU x.a_AU x.a_AU_erru x.a_AU_errd ∧
     IsTriple rk.stellar_properties.temp_k x.Teff x.Teff_erru x.Teff_errd ∧
     IsTriple rk.stellar_properties.metal_log x.FeH x.FeH_erru x.FeH_errd ∧
     IsTriple rk.stellar_properties.mass_sol x.Msun x.Msun_erru x.Msun_errd ∧
     IsTriple rk.stellar_properties.radius_sol x.Rsun x.Rsun_erru x.Rsun_errd ∧
     IsTriple rk.stellar_properties.gravity_log_cgs x.cgs x.cgs_erru x.cgs_errd ∧
     IsTriple rk.stellar_properties.density_sol x.rhosun x.rhosun_erru x.rhosun_errd ∧
     IsTriple rk.planetary_properties.mass_jup x.Mjup x.Mjup_erru x.Mjup_errd ∧
     IsTriple rk.planetary_properties.radius_jup x.Rjup x.Rjup_erru x.Rjup_errd ∧
     IsTriple rk.planetary_properties.gravity x.ms2 x.ms2_erru x.ms2_errd ∧
     IsTriple rk.planetary_properties.density_jup x.rhoJup x.rhoJup_erru x.rhoJup_errd ∧
     IsTriple rk.planetary_properties.temp_eq_k x.Teqk x.Teqk_erru x.Teqk_errd) := by
  obtain ⟨-, -, he, ha, hst, hpl, -⟩ := parseRow_some (parseLine_some hx ht)
  obtain ⟨h1, h2, h3, h4, h5, h6⟩ := parseStellar_some hst
  obtain ⟨h7, h8, h9, h10, h11⟩ := parsePlanetary_some hpl
  obtain ⟨-, -, he', ha', hst', hpl', -⟩ := parseRow_some (parseLine_some hx hf)
  obtain ⟨h1', h2', h3', h4', h5', h6'⟩ := parseStellar_some hst'
  obtain ⟨h7', h8', h9', h10', h11'⟩ := parsePlanetary_some hpl'
  exact ⟨⟨get_data_true he, get_data_true ha, get_data_true h1, get_data_true h2,
      get_data_true h3, get_data_true h4, get_data_true h5, get_data_true h6,
      get_data_true h7, get_data_true h8, get_data_true h9, get_data_true h10,
      get_data_true h11⟩,
    ⟨get_data_false he', get_data_false ha', get_data_false h1', get_data_false h2',
      get_data_false h3', get_data_false h4', get_data_false h5', get_data_false h6',
      get_data_false h7', get_data_false h8', get_data_false h9', get_data_false h10',
      get_data_false h11'⟩⟩

/-- C4, witness: both mode shapes hold for the records parsed from
`wLine` in the two modes. -/
theorem get_data_mode_shapes_witness :
    mkProps (splitWs wLine) = some wProps ∧
    parseLine true wLine = some wRecT ∧
    parseLine false wLine = some wRecF ∧
    ((IsBare wRecT.eccentricity wProps.ecc ∧
      IsBare wRecT.semimajor_AU wProps.a_AU ∧
      IsBare wRecT.stellar_properties.temp_k wProps.Teff ∧
      IsBare wRecT.stellar_properties.metal_log wProps.FeH ∧
      IsBare wRecT.stellar_properties.mass_sol wProps.Msun ∧
      IsBare wRecT.stellar_properties.radius_sol wProps.Rsun ∧
      IsBare wRecT.stellar_properties.gravity_log_cgs wProps.cgs ∧
      IsBare wRecT.stellar_properties.density_sol wProps.rhosun ∧
      IsBare wRecT.planetary_properties.mass_jup wProps.Mjup ∧
      IsBare wRecT.planetary_properties.radius_jup wProps.Rjup ∧
      IsBare wRecT.planetary_properties.gravity wProps.ms2 ∧
      IsBare wRecT.planetary_properties.density_jup wProps.rhoJup ∧
      IsBare wRecT.planetary_properties.temp_eq_k wProps.Teqk) ∧
     (IsTriple wRecF.eccentricity wProps.ecc wProps.ecc_erru wProps.ecc_errd ∧
      IsTriple wRecF.semimajor_AU wProps.a_AU wProps.a_AU_erru wProps.a_AU_errd ∧
      IsTriple wRecF.stellar_properties.temp_k wProps.Teff wProps.Teff_erru wProps.Teff_errd ∧
      IsTriple wRecF.stellar_properties.metal_log wProps.FeH wProps.FeH_erru wProps.FeH_errd ∧
      IsTriple wRecF.stellar_properties.mass_sol wProps.Msun wProps.Msun_erru wProps.Msun_errd ∧
      IsTriple wRecF.stellar_properties.radius_sol wProps.Rsun wProps.Rsun_erru wProps.Rsun_errd ∧
      IsTriple wRecF.stellar_properties.gravity_log_cgs wProps.cgs wProps.cgs_erru wProps.cgs_errd ∧
      IsTriple wRecF.stellar_properties.density_sol wProps.rhosun wProps.rhosun_erru wProps.rhosun_errd ∧
      IsTriple wRecF.planetary_properties.mass_jup wProps.Mjup wProps.Mjup_erru wProps.Mjup_errd ∧
      IsTriple wRecF.planetary_properties.radius_jup wProps.Rjup wProps.Rjup_erru wProps.Rjup_errd ∧
      IsTriple wRecF.planetary_properties.gravity wProps.ms2 wProps.ms2_erru wProps.ms2_errd ∧
      IsTriple wRecF.planetary_properties.density_jup wProps.rhoJup wProps.rhoJup_erru wProps.rhoJup_errd ∧
      IsTriple wRecF.planetary_properties.temp_eq_k wProps.Teqk wProps.Teqk_erru wProps.Teqk_errd)) :=
  ⟨by decide, by decide, by decide,
    get_data_mode_shapes wLine wProps wRecT wRecF (by decide) (by decide) (by decide)⟩

/-- C9, confirmed: a successful `parse_ascii` returns exactly one
Record per kept (non-empty, non-`#`) line, each parsed from its line,
in the same relative order. -/
theorem parse_ascii_one_record_per_kept_line (src : List (List Char))
    (skip_err_margins : Bool) (recs : List Record)
    (h : parse_ascii src skip_err_margins = some recs) :
    List.Forall₂ (fun line rec => parseLine skip_err_margins line = some rec)
      (src.filter keepLine) recs ∧
    recs.length = (src.filter keepLine).length := by
  induction src generalizing recs with
  | nil =>
    rw [parse_ascii] at h
    obtain rfl : [] = recs := Option.some.inj h
    exact ⟨List.Forall₂.nil, rfl⟩
  | cons a rest ih =>
    rw [parse_ascii] at h
    by_cases hk : keepLine a
    · rw [if_pos hk] at h
      cases hpl : parseLine skip_err_margins a with
      | none => rw [hpl] at h; exact absurd h (by simp)
      | some r =>
        cases hpr : parse_ascii rest skip_err_margins with
        | none => rw [hpl, hpr] at h; exact absurd h (by simp)
        | some rs =>
          rw [hpl, hpr] at h
          obtain rfl : r :: rs = recs := Option.some.inj h
          obtain ⟨hall, hlen⟩ := ih rs hpr
          rw [List.filter_cons_of_pos hk]
          exact ⟨List.Forall₂.cons hpl hall, by simp [hlen]⟩
    · rw [if_neg hk] at h
      rw [List.filter_cons_of_neg hk]
      exact ih recs h

/-- C9, witness: a three-line input with one comment, one data row and
one empty line yields exactly the one record of the data row. -/
theorem parse_ascii_one_record_per_kept_line_witness :
    parse_ascii [chars "# header comment", wLine, []] true = some [wRecT] ∧
    (List.Forall₂ (fun line rec => parseLine true line = some rec)
      ([chars "# header comment", wLine, []].filter keepLine) [wRecT] ∧
     [wRecT].length = ([chars "# header comment", wLine, []].filter keepLine).length) :=
  ⟨by decide,
    parse_ascii_one_record_per_kept_line [chars "# header comment", wLine, []]
      true [wRecT] (by decide)⟩

/-- C2, confirmed: a CSV input (header plus comma-joined rows) and an
ASCII input (space-joined rows) carrying the same comma-free field
values parse to identical results, hence identical Records, in both
modes. -/
theorem parse_csv_ascii_equiv (header : List Char)
    (rows : List (List (List Char))) (skip_err_margins : Bool)
    (hc : ∀ row ∈ rows, ∀ f ∈ row, ',' ∉ f) :
    parse_csv (header :: rows.map (joinSep [','])) skip_err_margins =
    parse_ascii (rows.map (joinSep [' '])) skip_err_margins := by
  unfold parse_csv
  show parse_ascii ((rows.map (joinSep [','])).map commaToSpace) skip_err_margins = _
  congr 1
  rw [List.map_map]
  induction rows with
  | nil => rfl
  | cons row rest ih =>
    have hrow : ∀ f ∈ row, ',' ∉ f := hc row (List.mem_cons_self row rest)
    have hrest : ∀ rw ∈ rest, ∀ f ∈ rw, ',' ∉ f :=
      fun rw hrw => hc rw (List.mem_cons_of_mem row hrw)
    simp only [List.map_cons, Function.comp_apply]
    rw [commaToSpace_joinSep hrow, ih hrest]

/-- C2, witness: the comma-joined and space-joined versions of the
`wFields` row parse identically. -/
theorem parse_csv_ascii_equiv_witness :
    (∀ row ∈ [wFields], ∀ f ∈ row, ',' ∉ f) ∧
    parse_csv ([chars "header line"] ++ [wFields].map (joinSep [','])) true =
      parse_ascii ([wFields].map (joinSep [' '])) true :=
  ⟨by decide,
    parse_csv_ascii_equiv (chars "header line") [wFields] true (by decide)⟩

/-- C7, counterexample: with `https` occurring both as the scheme and
later in the path, the retry URL the code builds rewrites both
occurrences, so it does not differ from the original only in the
scheme. -/
theorem tls_retry_not_scheme_only :
    (fun _ => NetResult.sslError : List Char → NetResult) (chars "https://a/https") =
      NetResult.sslError ∧
    requestLog (fun _ => NetResult.sslError) (chars "https://a/https") =
      [chars "https://a/https", chars "http://a/http"] ∧
    chars "http://a/http" ≠ specSchemeDowngrade (chars "https://a/https") := by
  exact ⟨rfl, by decide, by decide⟩

/-- C7, amended: on a certificate-verification failure the fetcher
retries exactly once, at the URL obtained by replacing every
occurrence of the substring `https` in the original URL by `http`;
when `https` occurs nowhere past the scheme prefix, that retry URL is
exactly the scheme-downgraded URL the claim describes. -/
theorem tls_retry_replace_all (net : List Char → NetResult) (uri : List Char)
    (hssl : net uri = NetResult.sslError) :
    requestLog net uri = [uri, pyReplace (chars "https") (chars "http") uri] ∧
    (isPre (chars "https") uri = true →
      pyReplace (chars "https") (chars "http") (uri.drop (chars "https").length) =
        uri.drop (chars "https").length →
      pyReplace (chars "https") (chars "http") uri = specSchemeDowngrade uri) := by
  constructor
  · rw [requestLog, hssl]
  · intro hp hfix
    rw [pyReplace_head hp (by decide), hfix]
    rw [specSchemeDowngrade, if_pos hp]

/-- C7, witness of the amended theorem: a URL with `https` only in the
scheme is retried at the plain scheme-downgraded URL. -/
theorem tls_retry_replace_all_witness :
    (fun _ => NetResult.sslError : List Char → NetResult) (chars "https://host/path") =
      NetResult.sslError ∧
    (requestLog (fun _ => NetResult.sslError) (chars "https://host/path") =
      [chars "https://host/path",
       pyReplace (chars "https") (chars "http") (chars "https://host/path")] ∧
     (isPre (chars "https") (chars "https://host/path") = true →
       pyReplace (chars "https") (chars "http")
           ((chars "https://host/path").drop (chars "https").length) =
         (chars "https://host/path").drop (chars "https").length →
       pyReplace (chars "https") (chars "http") (chars "https://host/path") =
         specSchemeDowngrade (chars "https://host/path"))) :=
  ⟨rfl, tls_retry_replace_all (fun _ => NetResult.sslError) (chars "https://host/path") rfl⟩
